import Mathlib

/-!
Verification development for the ArXiv crawler (`src/crawl.py`).

The Python module is shallowly embedded:

* `build_search_query` (QueryBuilder) becomes a pure function over a
  `SearchArgs` record; Python's `"sep".join` becomes `joinSep`, truthiness
  of optional strings becomes `strTruthy`.
* `parse_xml_response` / `fetch_papers` (PageFetcher) become functions over
  an abstract XML document / network outcome; Python exceptions become
  `Except PyError`.
* `crawl_all_papers` (CrawlLoop) becomes a step function `step` on a
  `CrawlState`, iterated with explicit fuel by `crawlLoop` (the Python
  `while` loop has no a-priori bound, so a run is any finite iteration).
  Logging (`print`) and the inter-page `time.sleep` delay have no effect on
  the data and are not modelled.
-/

/-- One paper record, the dict built per `<entry>` by `parse_xml_response`.
A field of type `Option (Option String)` models a dict key that, when set,
may be set to Python `None` (`some none`); plain `Option String` fields are
only ever set to actual strings. -/
structure Paper where
  arxiv_id : Option String := none
  title : Option String := none
  abstract : Option String := none
  authors : List (Option String) := []
  published : Option (Option String) := none
  updated : Option (Option String) := none
  categories : List String := []
  pdf_url : Option (Option String) := none
  page_url : Option (Option String) := none
deriving DecidableEq, Repr

/-- The keyword arguments of `build_search_query`.  A `None` list argument
and an empty list behave identically in the Python code (both falsy), so
lists are embedded as plain lists; `author`/`start_date`/`end_date` keep
their `Option` since `None` and `""` are the falsy cases of a string. -/
structure SearchArgs where
  categories : List String := []
  keywords_all : List String := []
  keywords_any : List String := []
  keywords_not : List String := []
  title_keywords : List String := []
  abstract_keywords : List String := []
  title_abstract_keywords : List String := []
  author : Option String := none
  start_date : Option String := none
  end_date : Option String := none
  date_type : String := "submittedDate"

/-- Python truthiness of an optional string: `None` and `""` are falsy. -/
def strTruthy : Option String → Bool
  | none => false
  | some s => !s.isEmpty

/-- Python `sep.join(parts)`. -/
def joinSep (sep : String) : List String → String
  | [] => ""
  | [x] => x
  | x :: y :: xs => x ++ sep ++ joinSep sep (y :: xs)

/-- Python `' ' in kw`: a space character occurs among the keyword's
characters. -/
def hasSpace (kw : String) : Bool := kw.data.contains ' '

/-- The quoting pattern `build_search_query` repeats for each keyword field:
`f'{field}:"{kw}"'` when the keyword contains a space, `f'{field}:{kw}'`
otherwise (`if ' ' in kw`). -/
def kwClause (field kw : String) : String :=
  if hasSpace kw then field ++ ":\"" ++ kw ++ "\"" else field ++ ":" ++ kw

/-- `ArxivCrawler.build_search_query` (src/crawl.py lines 21-136). -/
def build_search_query (a : SearchArgs) : String :=
  let query_parts : List String := []
  let query_parts := if a.categories.isEmpty then query_parts else
    let cat_query := joinSep " OR " (a.categories.map (fun c => "cat:" ++ c))
    let cat_query := if a.categories.length > 1 then "(" ++ cat_query ++ ")" else cat_query
    query_parts ++ [cat_query]
  let query_parts := if a.keywords_all.isEmpty then query_parts else
    query_parts ++ a.keywords_all.map (kwClause "all")
  let query_parts := if a.keywords_any.isEmpty then query_parts else
    let any_query := joinSep " OR " (a.keywords_any.map (kwClause "all"))
    let any_query := if a.keywords_any.length > 1 then "(" ++ any_query ++ ")" else any_query
    query_parts ++ [any_query]
  let query_parts := if a.title_keywords.isEmpty then query_parts else
    query_parts ++ a.title_keywords.map (kwClause "ti")
  let query_parts := if a.abstract_keywords.isEmpty then query_parts else
    query_parts ++ a.abstract_keywords.map (kwClause "abs")
  let query_parts := if a.title_abstract_keywords.isEmpty then query_parts else
    query_parts ++ a.title_abstract_keywords.map (fun kw =>
      if hasSpace kw then "(ti:\"" ++ kw ++ "\" OR abs:\"" ++ kw ++ "\")"
      else "(ti:" ++ kw ++ " OR abs:" ++ kw ++ ")")
  let query_parts := if strTruthy a.author then
      query_parts ++ [kwClause "au" (a.author.getD "")]
    else query_parts
  let query_parts := if strTruthy a.start_date && strTruthy a.end_date then
      query_parts ++
        [a.date_type ++ ":[" ++ a.start_date.getD "" ++ " TO " ++ a.end_date.getD "" ++ "]"]
    else query_parts
  let main_query := joinSep " AND " query_parts
  if a.keywords_not.isEmpty then main_query else
    let not_query := joinSep " OR " (a.keywords_not.map (kwClause "all"))
    let not_query := if a.keywords_not.length > 1 then "(" ++ not_query ++ ")" else not_query
    main_query ++ " ANDNOT " ++ not_query

/-- The caller's guard in `crawl` (src/crawl.py line 449): `if not
search_query:` prints an error and returns without fetching.  True exactly
when the query string is empty (Python string falsiness). -/
def queryMissing (q : String) : Bool := q.data.isEmpty

/-! ## CrawlLoop (`crawl_all_papers`, src/crawl.py lines 271-356) -/

/-- Configuration of one `crawl_all_papers` run.  `fetch start n` is the
list `self.fetch_papers(search_query=…, start=start, max_results=n, …)`
returns; the loop treats the fetcher as a black box. -/
structure CrawlCfg where
  fetch : Nat → Nat → List Paper
  max_total : Nat
  batch_size : Nat

/-- `actual_batch_size = min(batch_size, 1000)` (line 296). -/
def CrawlCfg.actual_batch_size (cfg : CrawlCfg) : Nat := min cfg.batch_size 1000

/-- The loop's mutable state: `all_papers`, `start`, and
`consecutive_empty_batches`. -/
structure CrawlState where
  all_papers : List Paper
  start : Nat
  consecutive_empty_batches : Nat
deriving DecidableEq, Repr

/-- `current_batch_size = min(actual_batch_size, max_total -
len(all_papers))` (line 299): the page size requested from the fetcher. -/
def reqSize (cfg : CrawlCfg) (s : CrawlState) : Nat :=
  min cfg.actual_batch_size (cfg.max_total - s.all_papers.length)

/-- The dedup pass of lines 324-332: walk the raw page, keep a paper iff
its `arxiv_id` is truthy (present and non-empty) and not in the
`existing_ids` set, adding each kept id to the set. -/
def filterNew : List Paper → List (Option String) → List Paper
  | [], _ => []
  | p :: ps, existing_ids =>
    match p.arxiv_id with
    | some pid =>
      if pid ≠ "" ∧ some pid ∉ existing_ids then
        p :: filterNew ps (some pid :: existing_ids)
      else
        filterNew ps existing_ids
    | none => filterNew ps existing_ids

/-- Why one iteration of the `while` loop ended the run. -/
inductive StopReason where
  /-- `consecutive_empty_batches >= max_empty_batches` (`break` at line 316). -/
  | repeatedEmpty
  /-- `len(papers) < current_batch_size` and `len(papers) == 0`
  (`break` at line 346). -/
  | shortZero
  /-- the `while len(all_papers) < max_total` condition failed. -/
  | targetReached
  /-- model artifact: the iteration bound (fuel) ran out mid-run. -/
  | fuelExhausted
deriving DecidableEq, Repr

/-- Result of one loop iteration: continue with a new state, or stop. -/
inductive StepRes where
  | next : CrawlState → StepRes
  | done : StopReason → CrawlState → StepRes
deriving DecidableEq, Repr

/-- One iteration of the `while` loop of `crawl_all_papers`
(src/crawl.py lines 298-351), including the loop condition itself. -/
def step (cfg : CrawlCfg) (s : CrawlState) : StepRes :=
  if s.all_papers.length < cfg.max_total then
    let current_batch_size := reqSize cfg s
    let papers := cfg.fetch s.start current_batch_size
    if papers.isEmpty then
      let e := s.consecutive_empty_batches + 1
      if 3 ≤ e then
        .done .repeatedEmpty { s with consecutive_empty_batches := e }
      else
        .next { s with consecutive_empty_batches := e,
                       start := s.start + current_batch_size }
    else
      let s1 := { s with consecutive_empty_batches := 0 }
      let new_papers := filterNew papers (s1.all_papers.map Paper.arxiv_id)
      let s2 := { s1 with all_papers := s1.all_papers ++ new_papers,
                          start := s1.start + papers.length }
      if papers.length < current_batch_size then
        if papers.length = 0 then .done .shortZero s2 else .next s2
      else .next s2
  else .done .targetReached s

/-- The state carried by a step result. -/
def stOf : StepRes → CrawlState
  | .next s => s
  | .done _ s => s

/-- Iterate `step` for at most `fuel` iterations. -/
def crawlLoop (cfg : CrawlCfg) : Nat → CrawlState → CrawlState × StopReason
  | 0, s => (s, .fuelExhausted)
  | fuel + 1, s =>
    match step cfg s with
    | .next s' => crawlLoop cfg fuel s'
    | .done r s' => (s', r)

/-- `crawl_all_papers`: run the loop from the initial state
(`all_papers = []`, `start = 0`, `consecutive_empty_batches = 0`) and
return the accumulated list, together with why the run ended. -/
def crawl_all_papers (cfg : CrawlCfg) (fuel : Nat) : List Paper × StopReason :=
  let r := crawlLoop cfg fuel ⟨[], 0, 0⟩
  (r.1.all_papers, r.2)

/-! ## PageFetcher (`fetch_papers` / `parse_xml_response`,
src/crawl.py lines 138-269) -/

/-- A `<link>` element of an entry: its `title`, `rel` and `href`
attributes, each possibly absent (`link.get(...)` returns `None`). -/
structure LinkEntry where
  title : Option String := none
  rel : Option String := none
  href : Option String := none
deriving DecidableEq, Repr

/-- One `<entry>` of a well-formed Atom response, as the fields
`parse_xml_response` looks at.  For a sub-element that may be absent,
`none` means `entry.find(...)` returned `None`; `some t` means the element
exists and its `.text` is `t` (itself `None` for an empty element such as
`<id/>`).  `authorNameElems` lists, per `<author>` element, its `<name>`
child (if any) with that child's text; `categoryTermAttrs` lists the `term`
attribute of each `<category>` element. -/
structure Entry where
  idElem : Option (Option String) := none
  titleElem : Option (Option String) := none
  summaryElem : Option (Option String) := none
  authorNameElems : List (Option (Option String)) := []
  publishedElem : Option (Option String) := none
  updatedElem : Option (Option String) := none
  categoryTermAttrs : List (Option String) := []
  links : List LinkEntry := []
deriving DecidableEq, Repr

/-- The response body as `ET.fromstring` sees it: either not well-formed
XML (`ParseError`), or a parsed feed with a list of entries. -/
inductive XmlDoc where
  | malformed
  | wellFormed : List Entry → XmlDoc
deriving DecidableEq, Repr

/-- The Python exceptions `parse_xml_response` can raise past its own
`try`/`except ET.ParseError` handler. -/
inductive PyError where
  /-- `AttributeError`: calling `.split`/`.strip` on a `None` element text. -/
  | attributeError
deriving DecidableEq, Repr

/-- `id_elem.text.split('/')[-1]`: the final `/`-separated segment. -/
def splitLast (s : String) : String := (s.splitOn "/").getLastD ""

/-- The repeated per-field pattern `if elem is not None: paper[key] =
elem.text.<method>()`: key absent when the element is absent; an
`AttributeError` when the element is present with `None` text (the method
is called on `None`); otherwise the method applied to the text. -/
def textField (x : Option (Option String)) (f : String → String) :
    Except PyError (Option String) :=
  match x with
  | none => .ok none
  | some none => .error .attributeError
  | some (some t) => .ok (some (f t))

/-- Build the paper dict for one entry (the body of the `for entry in
root.findall('atom:entry', ...)` loop, lines 213-264).  Raises
`AttributeError` exactly when a present `<id>`, `<title>` or `<summary>`
element has `None` text (the code calls `.split` / `.strip` on it). -/
def parseEntry (e : Entry) : Except PyError Paper := do
  let arxiv_id ← textField e.idElem (fun t => splitLast t)
  let title ← textField e.titleElem (fun t => t.trim)
  let abstract ← textField e.summaryElem (fun t => t.trim)
  let authors := e.authorNameElems.foldl (fun acc nm =>
    match nm with
    | none => acc
    | some t => acc ++ [t]) []
  let categories := e.categoryTermAttrs.foldl (fun acc term =>
    match term with
    | some t => if !t.isEmpty then acc ++ [t] else acc
    | none => acc) []
  let urls := e.links.foldl
    (fun (u : Option (Option String) × Option (Option String)) lk =>
      if lk.title = some "pdf" then (some lk.href, u.2)
      else if lk.rel = some "alternate" then (u.1, some lk.href)
      else u)
    (none, none)
  pure { arxiv_id, title, abstract, authors,
         published := e.publishedElem, updated := e.updatedElem,
         categories, pdf_url := urls.1, page_url := urls.2 }

/-- `ArxivCrawler.parse_xml_response` (lines 184-269).  A `ParseError` from
`ET.fromstring` is caught and the (still empty) `papers` list is returned;
any `AttributeError` from an entry propagates to the caller. -/
def parse_xml_response : XmlDoc → Except PyError (List Paper)
  | .malformed => .ok []
  | .wellFormed entries =>
    entries.foldlM (fun acc e => do
      let p ← parseEntry e
      pure (acc ++ [p])) []

/-- The outcome of `self.session.get` + `response.raise_for_status()`:
a `requests.RequestException` (timeout, connection failure, or a non-2xx
status turned into `HTTPError` by `raise_for_status`), or a 2xx response
whose body parses as `XmlDoc`.  (`fetch_papers` also clamps
`max_results = min(max_results, 2000)` before the request; the clamp only
changes the request parameters, not the shape of the outcome.) -/
inductive HttpOutcome where
  | requestError
  | success : XmlDoc → HttpOutcome
deriving DecidableEq, Repr

/-- `ArxivCrawler.fetch_papers` (lines 138-182): `except
requests.RequestException` returns `[]`; everything else is
`parse_xml_response` on the body, whose `AttributeError` is not caught. -/
def fetch_papers (o : HttpOutcome) : Except PyError (List Paper) :=
  match o with
  | .requestError => .ok []
  | .success doc => parse_xml_response doc

/-! ## Substring occurrence

Executable substring matching over the character lists of strings, used to
state "the output contains / does not contain this connector token". -/

/-- `lstartsWith pat l`: `pat` is a prefix of `l` (on `List Char`). -/
def lstartsWith : List Char → List Char → Bool
  | [], _ => true
  | _ :: _, [] => false
  | c :: cs, d :: ds => c == d && lstartsWith cs ds

/-- `loccurs pat l`: `pat` occurs contiguously somewhere in `l`. -/
def loccurs (pat : List Char) : List Char → Bool
  | [] => pat.isEmpty
  | c :: rest => lstartsWith pat (c :: rest) || loccurs pat rest

/-- `hasSub s pat`: `pat` occurs as a substring of `s`. -/
def hasSub (s pat : String) : Bool := loccurs pat.data s.data

theorem sdata_append (a b : String) : (a ++ b).data = a.data ++ b.data := rfl

theorem lstartsWith_mem {pat l : List Char} (h : lstartsWith pat l = true) :
    ∀ c ∈ pat, c ∈ l := by
  induction pat generalizing l with
  | nil => intro c hc; cases hc
  | cons p ps ih =>
    cases l with
    | nil => cases h
    | cons d ds =>
      simp only [lstartsWith, Bool.and_eq_true, beq_iff_eq] at h
      intro c hc
      rcases List.mem_cons.mp hc with hc | hc
      · exact List.mem_cons.mpr (Or.inl (hc.trans h.1))
      · exact List.mem_cons.mpr (Or.inr (ih h.2 c hc))

theorem loccurs_eq_false {c0 : Char} {pat l : List Char}
    (hc : c0 ∈ pat) (hl : c0 ∉ l) : loccurs pat l = false := by
  induction l with
  | nil =>
    cases pat with
    | nil => cases hc
    | cons p ps => rfl
  | cons d ds ih =>
    simp only [loccurs, Bool.or_eq_false_iff]
    constructor
    · cases hsw : lstartsWith pat (d :: ds) with
      | false => rfl
      | true => exact absurd (lstartsWith_mem hsw c0 hc) hl
    · exact ih (fun h => hl (List.mem_cons.mpr (Or.inr h)))

theorem lstartsWith_append (pat b : List Char) :
    lstartsWith pat (pat ++ b) = true := by
  induction pat with
  | nil => rfl
  | cons p ps ih => simp [lstartsWith, ih]

theorem loccurs_nil_pat (l : List Char) : loccurs [] l = true := by
  cases l <;> rfl

theorem loccurs_append_self (a pat b : List Char) :
    loccurs pat (a ++ pat ++ b) = true := by
  induction a with
  | nil =>
    cases pat with
    | nil => exact loccurs_nil_pat b
    | cons p ps =>
      show loccurs (p :: ps) (p :: (ps ++ b)) = true
      simp only [loccurs, Bool.or_eq_true]
      exact Or.inl (lstartsWith_append (p :: ps) b)
  | cons x a' ih =>
    show loccurs pat (x :: (a' ++ pat ++ b)) = true
    simp only [loccurs, Bool.or_eq_true]
    exact Or.inr ih

theorem hasSub_of_parts {s pat : String} (a b : List Char)
    (h : s.data = a ++ pat.data ++ b) : hasSub s pat = true := by
  rw [hasSub, h]; exact loccurs_append_self a pat.data b

theorem hasSub_eq_false {s pat : String} {c0 : Char}
    (hc : c0 ∈ pat.data) (hs : c0 ∉ s.data) : hasSub s pat = false :=
  loccurs_eq_false hc hs

/-! ### Characters of the query builder's output -/

theorem mem_joinSep {c : Char} {sep : String} {l : List String}
    (h : c ∈ (joinSep sep l).data) : c ∈ sep.data ∨ ∃ x ∈ l, c ∈ x.data := by
  induction l with
  | nil => cases h
  | cons x xs ih =>
    cases xs with
    | nil => exact Or.inr ⟨x, List.mem_singleton.mpr rfl, h⟩
    | cons y ys =>
      rw [show joinSep sep (x :: y :: ys) = x ++ sep ++ joinSep sep (y :: ys) from rfl,
        sdata_append, sdata_append] at h
      rcases List.mem_append.mp h with h | h
      · rcases List.mem_append.mp h with h | h
        · exact Or.inr ⟨x, List.mem_cons_self x _, h⟩
        · exact Or.inl h
      · rcases ih h with h | ⟨z, hz, hcz⟩
        · exact Or.inl h
        · exact Or.inr ⟨z, List.mem_cons.mpr (Or.inr hz), hcz⟩

theorem mem_kwClause {c : Char} {fld kw : String}
    (h : c ∈ (kwClause fld kw).data) :
    c ∈ fld.data ∨ c = ':' ∨ c = '"' ∨ c ∈ kw.data := by
  unfold kwClause at h
  split at h
  · rw [sdata_append, sdata_append, sdata_append] at h
    have hq : ("\"" : String).data = ['"'] := rfl
    have hcq : (":\"" : String).data = [':', '"'] := rfl
    rcases List.mem_append.mp h with h | h
    · rcases List.mem_append.mp h with h | h
      · rcases List.mem_append.mp h with h | h
        · exact Or.inl h
        · rw [hcq] at h
          rcases List.mem_cons.mp h with h | h
          · exact Or.inr (Or.inl h)
          · exact Or.inr (Or.inr (Or.inl (List.mem_singleton.mp h)))
      · exact Or.inr (Or.inr (Or.inr h))
    · rw [hq] at h
      exact Or.inr (Or.inr (Or.inl (List.mem_singleton.mp h)))
  · rw [sdata_append, sdata_append] at h
    have hc2 : (":" : String).data = [':'] := rfl
    rcases List.mem_append.mp h with h | h
    · rcases List.mem_append.mp h with h | h
      · exact Or.inl h
      · rw [hc2] at h
        exact Or.inr (Or.inl (List.mem_singleton.mp h))
    · exact Or.inr (Or.inr (Or.inr h))

theorem kwClause_of_space {kw : String} (fld : String)
    (h : hasSpace kw = true) :
    kwClause fld kw = fld ++ ":\"" ++ kw ++ "\"" := by
  simp [kwClause, h]

theorem kwClause_of_no_space {kw : String} (fld : String)
    (h : hasSpace kw = false) :
    kwClause fld kw = fld ++ ":" ++ kw := by
  simp [kwClause, h]

/-! ### The query built from a single populated field -/

theorem bsq_categories (c : String) (cs : List String) :
    build_search_query { categories := c :: cs } =
      (if (c :: cs).length > 1
        then "(" ++ joinSep " OR " ((c :: cs).map (fun x => "cat:" ++ x)) ++ ")"
        else joinSep " OR " ((c :: cs).map (fun x => "cat:" ++ x))) := by
  simp [build_search_query, strTruthy, joinSep]

theorem bsq_keywords_any (k : String) (ks : List String) :
    build_search_query { keywords_any := k :: ks } =
      (if (k :: ks).length > 1
        then "(" ++ joinSep " OR " ((k :: ks).map (kwClause "all")) ++ ")"
        else joinSep " OR " ((k :: ks).map (kwClause "all"))) := by
  simp [build_search_query, strTruthy, joinSep]

theorem bsq_keywords_all_single (k : String) :
    build_search_query { keywords_all := [k] } = kwClause "all" k := by
  simp [build_search_query, strTruthy, joinSep]

theorem bsq_title_single (k : String) :
    build_search_query { title_keywords := [k] } = kwClause "ti" k := by
  simp [build_search_query, strTruthy, joinSep]

theorem bsq_abstract_single (k : String) :
    build_search_query { abstract_keywords := [k] } = kwClause "abs" k := by
  simp [build_search_query, strTruthy, joinSep]

theorem bsq_title_abstract_single (k : String) :
    build_search_query { title_abstract_keywords := [k] } =
      (if hasSpace k then "(ti:\"" ++ k ++ "\" OR abs:\"" ++ k ++ "\")"
        else "(ti:" ++ k ++ " OR abs:" ++ k ++ ")") := by
  simp [build_search_query, strTruthy, joinSep]

theorem bsq_author (a : String) (ha : a.isEmpty = false) :
    build_search_query { author := some a } = kwClause "au" a := by
  simp [build_search_query, strTruthy, joinSep, ha]

theorem bsq_author_empty : build_search_query { author := some "" } = "" := by
  simp [build_search_query, strTruthy, joinSep]

theorem bsq_keywords_not (k : String) (ks : List String) :
    build_search_query { keywords_not := k :: ks } =
      " ANDNOT " ++ (if (k :: ks).length > 1
        then "(" ++ joinSep " OR " ((k :: ks).map (kwClause "all")) ++ ")"
        else joinSep " OR " ((k :: ks).map (kwClause "all"))) := by
  simp [build_search_query, strTruthy, joinSep]

/-! ### Characters that can occur in those outputs -/

theorem mem_parenIf {ch : Char} {s : String} {cond : Prop} [Decidable cond]
    (h : ch ∈ (if cond then "(" ++ s ++ ")" else s).data) :
    ch = '(' ∨ ch = ')' ∨ ch ∈ s.data := by
  split at h
  · rw [sdata_append, sdata_append] at h
    have h1 : ("(" : String).data = ['('] := rfl
    have h2 : (")" : String).data = [')'] := rfl
    rcases List.mem_append.mp h with h | h
    · rcases List.mem_append.mp h with h | h
      · rw [h1] at h; exact Or.inl (List.mem_singleton.mp h)
      · exact Or.inr (Or.inr h)
    · rw [h2] at h; exact Or.inr (Or.inl (List.mem_singleton.mp h))
  · exact Or.inr (Or.inr h)

theorem mem_joinSep_map_pre {ch : Char} {sep pre : String} {l : List String}
    (h : ch ∈ (joinSep sep (l.map (fun x => pre ++ x))).data) :
    ch ∈ sep.data ∨ ch ∈ pre.data ∨ ∃ y ∈ l, ch ∈ y.data := by
  rcases mem_joinSep h with h | ⟨x, hx, hcx⟩
  · exact Or.inl h
  · obtain ⟨y, hy, rfl⟩ := List.mem_map.mp hx
    rw [sdata_append] at hcx
    rcases List.mem_append.mp hcx with h | h
    · exact Or.inr (Or.inl h)
    · exact Or.inr (Or.inr ⟨y, hy, h⟩)

theorem mem_joinSep_map_kw {ch : Char} {sep fld : String} {l : List String}
    (h : ch ∈ (joinSep sep (l.map (kwClause fld))).data) :
    ch ∈ sep.data ∨ ch ∈ fld.data ∨ ch = ':' ∨ ch = '"' ∨ ∃ y ∈ l, ch ∈ y.data := by
  rcases mem_joinSep h with h | ⟨x, hx, hcx⟩
  · exact Or.inl h
  · obtain ⟨y, hy, rfl⟩ := List.mem_map.mp hx
    rcases mem_kwClause hcx with h | h | h | h
    · exact Or.inr (Or.inl h)
    · exact Or.inr (Or.inr (Or.inl h))
    · exact Or.inr (Or.inr (Or.inr (Or.inl h)))
    · exact Or.inr (Or.inr (Or.inr (Or.inr ⟨y, hy, h⟩)))

/-- A string without the character `A` contains neither the ` AND `
connector nor the `ANDNOT` connector as a substring. -/
theorem noConnectors_of_noA {s : String} (hs : 'A' ∉ s.data) :
    hasSub s " AND " = false ∧ hasSub s "ANDNOT" = false :=
  ⟨@hasSub_eq_false s " AND " 'A' (by decide) hs,
   @hasSub_eq_false s "ANDNOT" 'A' (by decide) hs⟩

/-! ## Claim C7 -/

/-- C7 (counterexample): the claim says that for a `SearchFilter` with
exactly one populated field the output contains no `AND` connector,
whatever the number of entries in that field.  But two AND-keywords alone
already produce `all:a AND all:b`, which contains the ` AND ` connector:
each AND-keyword becomes its own `query_parts` entry and the entries are
joined with `" AND "` (src/crawl.py lines 62-68 and 121). -/
theorem c7_counterexample :
    build_search_query { keywords_all := ["a", "b"] } = "all:a AND all:b" ∧
    hasSub (build_search_query { keywords_all := ["a", "b"] }) " AND " = true := by
  constructor
  · rfl
  · decide

/-- C7 (amended): with exactly one populated field the output contains no
` AND ` and no `ANDNOT` connector — provided the populated field is the
category list, the OR-keyword list, or the author (any number of entries),
or is one of the per-keyword fields (AND-keywords, title, abstract,
title-or-abstract) with a single entry; entries are assumed not to contain
the character `A`, so any connector in the output would have to come from
the builder itself.  When the populated field is the NOT-keyword list the
output does contain the `ANDNOT` connector. -/
theorem c7_single_field_connectors :
    (∀ c cs, (∀ x ∈ c :: cs, 'A' ∉ x.data) →
      hasSub (build_search_query { categories := c :: cs }) " AND " = false ∧
      hasSub (build_search_query { categories := c :: cs }) "ANDNOT" = false) ∧
    (∀ k ks, (∀ x ∈ k :: ks, 'A' ∉ x.data) →
      hasSub (build_search_query { keywords_any := k :: ks }) " AND " = false ∧
      hasSub (build_search_query { keywords_any := k :: ks }) "ANDNOT" = false) ∧
    (∀ k, 'A' ∉ k.data →
      hasSub (build_search_query { keywords_all := [k] }) " AND " = false ∧
      hasSub (build_search_query { keywords_all := [k] }) "ANDNOT" = false) ∧
    (∀ k, 'A' ∉ k.data →
      hasSub (build_search_query { title_keywords := [k] }) " AND " = false ∧
      hasSub (build_search_query { title_keywords := [k] }) "ANDNOT" = false) ∧
    (∀ k, 'A' ∉ k.data →
      hasSub (build_search_query { abstract_keywords := [k] }) " AND " = false ∧
      hasSub (build_search_query { abstract_keywords := [k] }) "ANDNOT" = false) ∧
    (∀ k, 'A' ∉ k.data →
      hasSub (build_search_query { title_abstract_keywords := [k] }) " AND " = false ∧
      hasSub (build_search_query { title_abstract_keywords := [k] }) "ANDNOT" = false) ∧
    (∀ au, au.isEmpty = false → 'A' ∉ au.data →
      hasSub (build_search_query { author := some au }) " AND " = false ∧
      hasSub (build_search_query { author := some au }) "ANDNOT" = false) ∧
    (∀ k ks, hasSub (build_search_query { keywords_not := k :: ks }) "ANDNOT" = true) := by
  refine ⟨?_, ?_, ?_, ?_, ?_, ?_, ?_, ?_⟩
  · intro c cs hall
    refine noConnectors_of_noA ?_
    intro hA
    rw [bsq_categories] at hA
    rcases mem_parenIf hA with h | h | h
    · exact absurd h (by decide)
    · exact absurd h (by decide)
    · rcases mem_joinSep_map_pre h with h | h | ⟨y, hy, hcy⟩
      · exact absurd h (by decide)
      · exact absurd h (by decide)
      · exact hall y hy hcy
  · intro k ks hall
    refine noConnectors_of_noA ?_
    intro hA
    rw [bsq_keywords_any] at hA
    rcases mem_parenIf hA with h | h | h
    · exact absurd h (by decide)
    · exact absurd h (by decide)
    · rcases mem_joinSep_map_kw h with h | h | h | h | ⟨y, hy, hcy⟩
      · exact absurd h (by decide)
      · exact absurd h (by decide)
      · exact absurd h (by decide)
      · exact absurd h (by decide)
      · exact hall y hy hcy
  · intro k hk
    refine noConnectors_of_noA ?_
    intro hA
    rw [bsq_keywords_all_single] at hA
    rcases mem_kwClause hA with h | h | h | h
    · exact absurd h (by decide)
    · exact absurd h (by decide)
    · exact absurd h (by decide)
    · exact hk h
  · intro k hk
    refine noConnectors_of_noA ?_
    intro hA
    rw [bsq_title_single] at hA
    rcases mem_kwClause hA with h | h | h | h
    · exact absurd h (by decide)
    · exact absurd h (by decide)
    · exact absurd h (by decide)
    · exact hk h
  · intro k hk
    refine noConnectors_of_noA ?_
    intro hA
    rw [bsq_abstract_single] at hA
    rcases mem_kwClause hA with h | h | h | h
    · exact absurd h (by decide)
    · exact absurd h (by decide)
    · exact absurd h (by decide)
    · exact hk h
  · intro k hk
    refine noConnectors_of_noA ?_
    intro hA
    rw [bsq_title_abstract_single] at hA
    split at hA
    · simp only [sdata_append, List.mem_append] at hA
      rcases hA with (((h | h) | h) | h) | h
      · exact absurd h (by decide)
      · exact hk h
      · exact absurd h (by decide)
      · exact hk h
      · exact absurd h (by decide)
    · simp only [sdata_append, List.mem_append] at hA
      rcases hA with (((h | h) | h) | h) | h
      · exact absurd h (by decide)
      · exact hk h
      · exact absurd h (by decide)
      · exact hk h
      · exact absurd h (by decide)
  · intro au hau hk
    refine noConnectors_of_noA ?_
    intro hA
    rw [bsq_author au hau] at hA
    rcases mem_kwClause hA with h | h | h | h
    · exact absurd h (by decide)
    · exact absurd h (by decide)
    · exact absurd h (by decide)
    · exact hk h
  · intro k ks
    rw [bsq_keywords_not]
    refine hasSub_of_parts [' ']
      (' ' :: (if (k :: ks).length > 1
        then "(" ++ joinSep " OR " ((k :: ks).map (kwClause "all")) ++ ")"
        else joinSep " OR " ((k :: ks).map (kwClause "all"))).data) ?_
    rw [sdata_append]
    rfl

/-- C7 witness: the amended statement at concrete inputs — a two-category
filter produces no ` AND ` connector, and a NOT-only filter produces the
`ANDNOT` connector. -/
theorem c7_witness :
    hasSub (build_search_query { categories := ["cs.ai", "cs.lg"] }) " AND " = false ∧
    hasSub (build_search_query { keywords_not := ["x"] }) "ANDNOT" = true :=
  ⟨(c7_single_field_connectors.1 "cs.ai" ["cs.lg"] (by decide)).1,
   c7_single_field_connectors.2.2.2.2.2.2.2 "x" []⟩

/-! ## Claim C8 -/

/-- The seven keyword-clause kinds of `build_search_query` the quoting rule
is applied in. -/
inductive KwField where
  | allKw | anyKw | notKw | titleKw | absKw | tiAbsKw | authorKw
deriving DecidableEq, Repr

/-- A `SearchArgs` whose only populated field is the given clause kind,
with the single keyword `kw`. -/
def singleKwArgs : KwField → String → SearchArgs
  | .allKw, kw => { keywords_all := [kw] }
  | .anyKw, kw => { keywords_any := [kw] }
  | .notKw, kw => { keywords_not := [kw] }
  | .titleKw, kw => { title_keywords := [kw] }
  | .absKw, kw => { abstract_keywords := [kw] }
  | .tiAbsKw, kw => { title_abstract_keywords := [kw] }
  | .authorKw, kw => { author := some kw }

theorem bsq_keywords_any_single (k : String) :
    build_search_query { keywords_any := [k] } = kwClause "all" k := by
  simp [build_search_query, strTruthy, joinSep]

theorem bsq_keywords_not_single (k : String) :
    build_search_query { keywords_not := [k] } = " ANDNOT " ++ kwClause "all" k := by
  simp [build_search_query, strTruthy, joinSep]

/-- A keyword with a space is non-empty. -/
theorem isEmpty_false_of_hasSpace {kw : String} (h : hasSpace kw = true) :
    kw.isEmpty = false := by
  rcases hb : kw.isEmpty with _ | _
  · rfl
  · exfalso
    have hkw : kw = "" := (String.isEmpty_iff kw).mp hb
    subst hkw
    exact absurd h (by decide)

/-- C8 (counterexample): the claim says a keyword containing whitespace is
wrapped in double quotes, but the code tests only for the space character
(`if ' ' in kw`, src/crawl.py line 65): the keyword `a<TAB>b` contains
whitespace yet is emitted without any quote. -/
theorem c8_counterexample :
    build_search_query { keywords_all := ["a\tb"] } = "all:a\tb" ∧
    "a\tb".data.any Char.isWhitespace = true ∧
    '"' ∉ (build_search_query { keywords_all := ["a\tb"] }).data :=
  ⟨rfl, by decide, by decide⟩

/-- C8 (amended): in every keyword clause (AND, OR, NOT, title, abstract,
title-or-abstract, author), a keyword containing a *space character*
appears wrapped in double quotes in the output, and a keyword containing
no space (and no quote character of its own) yields an output with no
double-quote character at all. -/
theorem c8_space_quoting (f : KwField) (kw : String) :
    (hasSpace kw = true →
      hasSub (build_search_query (singleKwArgs f kw)) ("\"" ++ kw ++ "\"") = true) ∧
    (hasSpace kw = false → '"' ∉ kw.data →
      '"' ∉ (build_search_query (singleKwArgs f kw)).data) := by
  have hq : ("\"" ++ kw ++ "\"").data = '"' :: (kw.data ++ ['"']) := by
    rw [sdata_append, sdata_append]; rfl
  cases f
  case allKw =>
    constructor
    · intro h
      rw [show singleKwArgs .allKw kw = { keywords_all := [kw] } from rfl,
        bsq_keywords_all_single, kwClause_of_space "all" h]
      refine hasSub_of_parts ['a', 'l', 'l', ':'] [] ?_
      rw [hq, sdata_append, sdata_append, sdata_append]
      simp
    · intro h hk hmem
      rw [show singleKwArgs .allKw kw = { keywords_all := [kw] } from rfl,
        bsq_keywords_all_single, kwClause_of_no_space "all" h] at hmem
      simp only [sdata_append, List.mem_append] at hmem
      rcases hmem with (h1 | h1) | h1
      · exact absurd h1 (by decide)
      · exact absurd h1 (by decide)
      · exact hk h1
  case anyKw =>
    constructor
    · intro h
      rw [show singleKwArgs .anyKw kw = { keywords_any := [kw] } from rfl,
        bsq_keywords_any_single, kwClause_of_space "all" h]
      refine hasSub_of_parts ['a', 'l', 'l', ':'] [] ?_
      rw [hq, sdata_append, sdata_append, sdata_append]
      simp
    · intro h hk hmem
      rw [show singleKwArgs .anyKw kw = { keywords_any := [kw] } from rfl,
        bsq_keywords_any_single, kwClause_of_no_space "all" h] at hmem
      simp only [sdata_append, List.mem_append] at hmem
      rcases hmem with (h1 | h1) | h1
      · exact absurd h1 (by decide)
      · exact absurd h1 (by decide)
      · exact hk h1
  case notKw =>
    constructor
    · intro h
      rw [show singleKwArgs .notKw kw = { keywords_not := [kw] } from rfl,
        bsq_keywords_not_single, kwClause_of_space "all" h]
      refine hasSub_of_parts
        [' ', 'A', 'N', 'D', 'N', 'O', 'T', ' ', 'a', 'l', 'l', ':'] [] ?_
      rw [hq, sdata_append, sdata_append, sdata_append, sdata_append]
      simp
    · intro h hk hmem
      rw [show singleKwArgs .notKw kw = { keywords_not := [kw] } from rfl,
        bsq_keywords_not_single, kwClause_of_no_space "all" h] at hmem
      simp only [sdata_append, List.mem_append] at hmem
      rcases hmem with h1 | (h1 | h1) | h1
      · exact absurd h1 (by decide)
      · exact absurd h1 (by decide)
      · exact absurd h1 (by decide)
      · exact hk h1
  case titleKw =>
    constructor
    · intro h
      rw [show singleKwArgs .titleKw kw = { title_keywords := [kw] } from rfl,
        bsq_title_single, kwClause_of_space "ti" h]
      refine hasSub_of_parts ['t', 'i', ':'] [] ?_
      rw [hq, sdata_append, sdata_append, sdata_append]
      simp
    · intro h hk hmem
      rw [show singleKwArgs .titleKw kw = { title_keywords := [kw] } from rfl,
        bsq_title_single, kwClause_of_no_space "ti" h] at hmem
      simp only [sdata_append, List.mem_append] at hmem
      rcases hmem with (h1 | h1) | h1
      · exact absurd h1 (by decide)
      · exact absurd h1 (by decide)
      · exact hk h1
  case absKw =>
    constructor
    · intro h
      rw [show singleKwArgs .absKw kw = { abstract_keywords := [kw] } from rfl,
        bsq_abstract_single, kwClause_of_space "abs" h]
      refine hasSub_of_parts ['a', 'b', 's', ':'] [] ?_
      rw [hq, sdata_append, sdata_append, sdata_append]
      simp
    · intro h hk hmem
      rw [show singleKwArgs .absKw kw = { abstract_keywords := [kw] } from rfl,
        bsq_abstract_single, kwClause_of_no_space "abs" h] at hmem
      simp only [sdata_append, List.mem_append] at hmem
      rcases hmem with (h1 | h1) | h1
      · exact absurd h1 (by decide)
      · exact absurd h1 (by decide)
      · exact hk h1
  case tiAbsKw =>
    constructor
    · intro h
      rw [show singleKwArgs .tiAbsKw kw = { title_abstract_keywords := [kw] } from rfl,
        bsq_title_abstract_single]
      rw [if_pos h]
      refine hasSub_of_parts ['(', 't', 'i', ':']
        ((" OR abs:\"" ++ kw ++ "\")").data) ?_
      rw [hq, sdata_append, sdata_append, sdata_append, sdata_append,
        sdata_append, sdata_append]
      simp
    · intro h hk hmem
      rw [show singleKwArgs .tiAbsKw kw = { title_abstract_keywords := [kw] } from rfl,
        bsq_title_abstract_single] at hmem
      rw [if_neg (by simp [h])] at hmem
      simp only [sdata_append, List.mem_append] at hmem
      rcases hmem with (((h1 | h1) | h1) | h1) | h1
      · exact absurd h1 (by decide)
      · exact hk h1
      · exact absurd h1 (by decide)
      · exact hk h1
      · exact absurd h1 (by decide)
  case authorKw =>
    constructor
    · intro h
      rw [show singleKwArgs .authorKw kw = { author := some kw } from rfl,
        bsq_author kw (isEmpty_false_of_hasSpace h), kwClause_of_space "au" h]
      refine hasSub_of_parts ['a', 'u', ':'] [] ?_
      rw [hq, sdata_append, sdata_append, sdata_append]
      simp
    · intro h hk hmem
      rcases hau : kw.isEmpty with _ | _
      · rw [show singleKwArgs .authorKw kw = { author := some kw } from rfl,
          bsq_author kw hau, kwClause_of_no_space "au" h] at hmem
        simp only [sdata_append, List.mem_append] at hmem
        rcases hmem with (h1 | h1) | h1
        · exact absurd h1 (by decide)
        · exact absurd h1 (by decide)
        · exact hk h1
      · have hkw : kw = "" := (String.isEmpty_iff kw).mp hau
        rw [show singleKwArgs .authorKw kw = { author := some kw } from rfl,
          hkw, bsq_author_empty] at hmem
        exact absurd hmem (by decide)

/-- C8 witness: the amended statement at concrete keywords — `x y` (with a
space) appears quoted in an AND-keyword clause; `bert` (no space) yields a
title clause without any quote character. -/
theorem c8_witness :
    hasSub (build_search_query (singleKwArgs .allKw "x y")) ("\"" ++ "x y" ++ "\"") = true ∧
    '"' ∉ (build_search_query (singleKwArgs .titleKw "bert")).data :=
  ⟨(c8_space_quoting .allKw "x y").1 (by decide),
   (c8_space_quoting .titleKw "bert").2 (by decide) (by decide)⟩

/-! ## Claim C9 -/

/-- C9: a filter whose only populated field is the NOT-keyword list builds
the string `" ANDNOT " ++ or-group`: the main AND-chain (the join of
`query_parts`) is empty, and the result is non-empty, so the caller's
`if not search_query` guard in `crawl` does not reject it and a fetch
would be attempted with this query. -/
theorem c9_not_only_query (k : String) (ks : List String) :
    build_search_query { keywords_not := k :: ks } =
      " ANDNOT " ++ (if (k :: ks).length > 1
        then "(" ++ joinSep " OR " ((k :: ks).map (kwClause "all")) ++ ")"
        else joinSep " OR " ((k :: ks).map (kwClause "all"))) ∧
    queryMissing (build_search_query { keywords_not := k :: ks }) = false := by
  refine ⟨bsq_keywords_not k ks, ?_⟩
  rw [bsq_keywords_not]
  rfl

/-! ## Crawl-loop step lemmas -/

/-- On a live state whose fetch returns a raw-empty page, the step
increments the empty streak and either stops (`repeatedEmpty`) at streak 3
or continues with the offset advanced by the requested page size. -/
theorem step_alive_empty (cfg : CrawlCfg) (s : CrawlState)
    (halive : s.all_papers.length < cfg.max_total)
    (hemp : cfg.fetch s.start (reqSize cfg s) = []) :
    step cfg s =
      (if 3 ≤ s.consecutive_empty_batches + 1
        then .done .repeatedEmpty
          { s with consecutive_empty_batches := s.consecutive_empty_batches + 1 }
        else .next
          { s with consecutive_empty_batches := s.consecutive_empty_batches + 1,
                   start := s.start + reqSize cfg s }) := by
  simp only [step, if_pos halive, hemp, List.isEmpty_nil, if_true]

/-- On a live state whose fetch returns a non-empty page, the step resets
the empty streak to 0 and advances the offset by the page's raw length. -/
theorem step_alive_nonempty (cfg : CrawlCfg) (s : CrawlState)
    (halive : s.all_papers.length < cfg.max_total)
    (hne : cfg.fetch s.start (reqSize cfg s) ≠ []) :
    (stOf (step cfg s)).consecutive_empty_batches = 0 ∧
    (stOf (step cfg s)).start = s.start + (cfg.fetch s.start (reqSize cfg s)).length := by
  have hie : (cfg.fetch s.start (reqSize cfg s)).isEmpty = false := by
    cases hp : cfg.fetch s.start (reqSize cfg s) with
    | nil => exact absurd hp hne
    | cons a l => rfl
  simp only [step, if_pos halive, hie, Bool.false_eq_true, if_false]
  split
  · split
    · exact ⟨rfl, rfl⟩
    · exact ⟨rfl, rfl⟩
  · exact ⟨rfl, rfl⟩

/-! ## Claim C1 -/

/-- A paper with identifier `a`, for concrete runs. -/
def paperA : Paper := { arxiv_id := some "a" }

/-- A provider that answers page start 0 and page start 1 with the same
single paper, and nothing beyond. -/
def cfgDupPages : CrawlCfg :=
  { fetch := fun st _ => if st = 0 then [paperA] else if st = 1 then [paperA] else [],
    max_total := 10, batch_size := 5 }

/-- C1 (counterexample): in the run of `cfgDupPages`, the second fetched
page `[paperA]` is non-empty but yields zero new (post-dedup) records.
The claim says such a page increments the consecutive-empty-streak counter
and advances the offset by the requested page size (here 5).  The code
instead resets the counter to 0 (the `else` branch at src/crawl.py line
322 runs on any non-empty raw page) and advances the offset by the raw
page length 1: after that page the state is `⟨[paperA], 2, 0⟩`, not
`⟨[paperA], 6, 1⟩`. -/
theorem c1_counterexample :
    cfgDupPages.fetch 1 5 = [paperA] ∧
    filterNew [paperA] ([paperA].map Paper.arxiv_id) = [] ∧
    step cfgDupPages ⟨[], 0, 0⟩ = .next ⟨[paperA], 1, 0⟩ ∧
    step cfgDupPages ⟨[paperA], 1, 0⟩ = .next ⟨[paperA], 2, 0⟩ := by
  decide

/-- C1 (amended): the empty-streak counter counts *raw*-empty pages
(pre-dedup zero records), not pages with zero new post-dedup records.  On
a live state: if the fetch returns a raw-empty page, the streak is
incremented, the loop stops as `repeatedEmpty` exactly when the
incremented streak reaches the fixed threshold 3, and otherwise the offset
advances by the requested page size and fetching continues; if the fetch
returns a non-empty page — even one consisting entirely of duplicates —
the streak is reset to 0 and the offset advances by the raw page
length. -/
theorem c1_empty_streak (cfg : CrawlCfg) (s : CrawlState)
    (halive : s.all_papers.length < cfg.max_total) :
    (cfg.fetch s.start (reqSize cfg s) = [] →
      (s.consecutive_empty_batches + 1 < 3 →
        step cfg s = .next
          { s with consecutive_empty_batches := s.consecutive_empty_batches + 1,
                   start := s.start + reqSize cfg s }) ∧
      (3 ≤ s.consecutive_empty_batches + 1 →
        step cfg s = .done .repeatedEmpty
          { s with consecutive_empty_batches := s.consecutive_empty_batches + 1 })) ∧
    (cfg.fetch s.start (reqSize cfg s) ≠ [] →
      (stOf (step cfg s)).consecutive_empty_batches = 0 ∧
      (stOf (step cfg s)).start =
        s.start + (cfg.fetch s.start (reqSize cfg s)).length) := by
  constructor
  · intro hemp
    constructor
    · intro hlt
      rw [step_alive_empty cfg s halive hemp, if_neg (by omega)]
    · intro hge
      rw [step_alive_empty cfg s halive hemp, if_pos hge]
  · intro hne
    exact step_alive_nonempty cfg s halive hne

/-- C1 witness: the amended statement at concrete inputs — with
`cfgDupPages` the first fetch from state `⟨[paperA], 2, 0⟩` is raw-empty
and the step increments the streak and advances the offset by the
requested size 5; from state `⟨[], 0, 0⟩` the fetch is non-empty and the
step resets the streak. -/
theorem c1_witness :
    step cfgDupPages ⟨[paperA], 2, 0⟩ = .next ⟨[paperA], 7, 1⟩ ∧
    (stOf (step cfgDupPages ⟨[], 0, 0⟩)).consecutive_empty_batches = 0 :=
  ⟨((c1_empty_streak cfgDupPages ⟨[paperA], 2, 0⟩ (by decide)).1 (by decide)).1
      (by decide),
   ((c1_empty_streak cfgDupPages ⟨[], 0, 0⟩ (by decide)).2 (by decide)).1⟩

/-! ## Claim C2 -/

/-- A `done` step is only ever `repeatedEmpty` or `targetReached`: the
`shortZero` break (src/crawl.py line 346) sits in the non-empty branch,
where `len(papers) == 0` cannot hold, so it is unreachable. -/
theorem step_done_reason {cfg : CrawlCfg} {s : CrawlState} {r : StopReason}
    {s' : CrawlState} (h : step cfg s = .done r s') :
    r = .repeatedEmpty ∨ r = .targetReached := by
  simp only [step] at h
  split at h
  · split at h
    · split at h
      · exact Or.inl (StepRes.done.inj h).1.symm
      · cases h
    · rename_i hie
      split at h
      · split at h
        · rename_i hlen
          have : cfg.fetch s.start (reqSize cfg s) = [] := List.length_eq_zero.mp hlen
          rw [this] at hie
          exact absurd rfl hie
        · cases h
      · cases h
  · exact Or.inr (StepRes.done.inj h).1.symm

/-- The reason a `crawlLoop` run reports is never `shortZero`. -/
theorem crawlLoop_reason (cfg : CrawlCfg) : ∀ (fuel : Nat) (s : CrawlState),
    (crawlLoop cfg fuel s).2 = .repeatedEmpty ∨
    (crawlLoop cfg fuel s).2 = .targetReached ∨
    (crawlLoop cfg fuel s).2 = .fuelExhausted
  | 0, _ => Or.inr (Or.inr rfl)
  | fuel + 1, s => by
    simp only [crawlLoop]
    cases hstep : step cfg s with
    | next s' => exact crawlLoop_reason cfg fuel s'
    | done r s' =>
      rcases step_done_reason hstep with h | h
      · exact Or.inl (by simp [h])
      · exact Or.inr (Or.inl (by simp [h]))

/-- A paper with identifier `b`, for concrete runs. -/
def paperB : Paper := { arxiv_id := some "b" }

/-- A provider with a gap: page start 0 is empty, page start 2 has one
paper, everything else is empty. -/
def cfgGapPages : CrawlCfg :=
  { fetch := fun st _ => if st = 2 then [paperB] else [],
    max_total := 5, batch_size := 2 }

/-- C2 (counterexample): in the run of `cfgGapPages` the very first fetch
returns 0 records — strictly fewer than the requested page size 2 with a
raw count of exactly zero.  The claim says the loop stops immediately
after that page and never issues another fetch, so the result would be
empty.  The code instead increments the empty streak and keeps fetching:
the third fetch (start 2) contributes `paperB`, and the run ends later as
`repeatedEmpty`, not as a short-page stop. -/
theorem c2_counterexample :
    cfgGapPages.fetch 0 (reqSize cfgGapPages ⟨[], 0, 0⟩) = [] ∧
    reqSize cfgGapPages ⟨[], 0, 0⟩ = 2 ∧
    crawl_all_papers cfgGapPages 10 = ([paperB], .repeatedEmpty) := by
  decide

/-- C2 (amended): a fetch of zero raw records does not stop the loop by
itself: unless it is the third consecutive raw-empty page, the loop
increments the empty streak, advances the offset by the requested page
size and issues further fetches; and no run ever stops for the
short-page-at-zero reason — its `break` is unreachable, so every run ends
as `repeatedEmpty`, `targetReached`, or by exhausting the iteration
bound. -/
theorem c2_zero_page_continues (cfg : CrawlCfg) (fuel : Nat) (s0 s : CrawlState) :
    (s.all_papers.length < cfg.max_total →
      cfg.fetch s.start (reqSize cfg s) = [] →
      s.consecutive_empty_batches + 1 < 3 →
      step cfg s = .next
        { s with consecutive_empty_batches := s.consecutive_empty_batches + 1,
                 start := s.start + reqSize cfg s }) ∧
    ((crawlLoop cfg fuel s0).2 = .repeatedEmpty ∨
     (crawlLoop cfg fuel s0).2 = .targetReached ∨
     (crawlLoop cfg fuel s0).2 = .fuelExhausted) := by
  constructor
  · intro halive hemp hlt
    rw [step_alive_empty cfg s halive hemp, if_neg (by omega)]
  · exact crawlLoop_reason cfg fuel s0

/-- C2 witness: the amended statement at `cfgGapPages` — the raw-zero
first page leads to a continued run (`.next` with streak 1 and offset 2),
and the ten-step run stops as `repeatedEmpty`. -/
theorem c2_witness :
    step cfgGapPages ⟨[], 0, 0⟩ = .next ⟨[], 2, 1⟩ ∧
    ((crawlLoop cfgGapPages 10 ⟨[], 0, 0⟩).2 = .repeatedEmpty ∨
     (crawlLoop cfgGapPages 10 ⟨[], 0, 0⟩).2 = .targetReached ∨
     (crawlLoop cfgGapPages 10 ⟨[], 0, 0⟩).2 = .fuelExhausted) :=
  ⟨(c2_zero_page_continues cfgGapPages 10 ⟨[], 0, 0⟩ ⟨[], 0, 0⟩).1
      (by decide) (by decide) (by decide),
   (c2_zero_page_continues cfgGapPages 10 ⟨[], 0, 0⟩ ⟨[], 0, 0⟩).2⟩

/-! ## Claims C3 and C10: the dedup invariant -/

/-- A paper whose `arxiv_id` is present and non-empty — exactly the
truthiness test `if paper_id` of src/crawl.py line 330. -/
def paperIdOk (p : Paper) : Bool :=
  match p.arxiv_id with
  | some pid => pid != ""
  | none => false

/-- `filterNew` keeps only papers with a truthy id not in `existing_ids`,
and the kept papers have pairwise distinct ids. -/
theorem filterNew_spec : ∀ (papers : List Paper) (ids : List (Option String)),
    (∀ p ∈ filterNew papers ids, paperIdOk p = true ∧ p.arxiv_id ∉ ids) ∧
    ((filterNew papers ids).map Paper.arxiv_id).Nodup := by
  intro papers
  induction papers with
  | nil =>
    intro ids
    exact ⟨fun p hp => absurd hp (List.not_mem_nil p), List.nodup_nil⟩
  | cons p ps ih =>
    intro ids
    cases hid : p.arxiv_id with
    | none =>
      have hfn : filterNew (p :: ps) ids = filterNew ps ids := by
        simp [filterNew, hid]
      rw [hfn]
      exact ih ids
    | some pid =>
      by_cases hcond : pid ≠ "" ∧ some pid ∉ ids
      · have hfn : filterNew (p :: ps) ids = p :: filterNew ps (some pid :: ids) := by
          simp only [filterNew, hid, if_pos hcond]
        rw [hfn]
        obtain ⟨ihmem, ihnd⟩ := ih (some pid :: ids)
        constructor
        · intro q hq
          rcases List.mem_cons.mp hq with hq | hq
          · subst hq
            refine ⟨?_, ?_⟩
            · simp [paperIdOk, hid, hcond.1]
            · rw [hid]; exact hcond.2
          · obtain ⟨hok, hnotin⟩ := ihmem q hq
            exact ⟨hok, fun hmem => hnotin (List.mem_cons.mpr (Or.inr hmem))⟩
        · rw [List.map_cons]
          refine List.nodup_cons.mpr ⟨?_, ihnd⟩
          intro hmem
          obtain ⟨q, hq, hpq⟩ := List.mem_map.mp hmem
          have hnotin := (ihmem q hq).2
          rw [hpq, hid] at hnotin
          exact hnotin (List.mem_cons_self _ _)
      · have hfn : filterNew (p :: ps) ids = filterNew ps ids := by
          simp only [filterNew, hid, if_neg hcond]
        rw [hfn]
        exact ih ids

/-- The invariant on the accumulated list: every paper has a truthy id and
ids are pairwise distinct. -/
def crawlInv (l : List Paper) : Prop :=
  (∀ p ∈ l, paperIdOk p = true) ∧ (l.map Paper.arxiv_id).Nodup

theorem crawlInv_nil : crawlInv [] :=
  ⟨fun p hp => absurd hp (List.not_mem_nil p), List.nodup_nil⟩

theorem crawlInv_extend {l : List Paper} (h : crawlInv l) (papers : List Paper) :
    crawlInv (l ++ filterNew papers (l.map Paper.arxiv_id)) := by
  obtain ⟨hall, hnd⟩ := h
  obtain ⟨hmem, hnd2⟩ := filterNew_spec papers (l.map Paper.arxiv_id)
  constructor
  · intro p hp
    rcases List.mem_append.mp hp with hp | hp
    · exact hall p hp
    · exact (hmem p hp).1
  · rw [List.map_append]
    refine List.nodup_append.mpr ⟨hnd, hnd2, ?_⟩
    intro x hx1 hx2
    obtain ⟨q, hq, hqx⟩ := List.mem_map.mp hx2
    rw [← hqx] at hx1
    exact (hmem q hq).2 hx1

theorem step_preserves_inv (cfg : CrawlCfg) (s : CrawlState)
    (h : crawlInv s.all_papers) : crawlInv (stOf (step cfg s)).all_papers := by
  simp only [step]
  split
  · split
    · split
      · exact h
      · exact h
    · split
      · split
        · exact crawlInv_extend h _
        · exact crawlInv_extend h _
      · exact crawlInv_extend h _
  · exact h

theorem crawlLoop_inv (cfg : CrawlCfg) : ∀ (fuel : Nat) (s : CrawlState),
    crawlInv s.all_papers → crawlInv (crawlLoop cfg fuel s).1.all_papers
  | 0, _, h => h
  | fuel + 1, s, h => by
    simp only [crawlLoop]
    have h' := step_preserves_inv cfg s h
    cases hstep : step cfg s with
    | next s' =>
      rw [hstep] at h'
      exact crawlLoop_inv cfg fuel s' h'
    | done r s' =>
      rw [hstep] at h'
      exact h'

/-- Papers with shared identifier `x` across two pages, for the C3
scenario. -/
def paperX1 : Paper := { arxiv_id := some "x", title := some "t1" }

def paperX2 : Paper := { arxiv_id := some "x", title := some "t2" }

def paperY : Paper := { arxiv_id := some "y" }

def paperZ : Paper := { arxiv_id := some "z" }

/-- A provider whose first page is `[paperX1, paperY]` and second page is
`[paperX2, paperZ]` — the identifier `x` appears on both pages. -/
def cfgSharedId : CrawlCfg :=
  { fetch := fun st _ =>
      if st = 0 then [paperX1, paperY] else if st = 2 then [paperX2, paperZ] else [],
    max_total := 10, batch_size := 2 }

/-- C3: for every provider and every fuel bound, the list
`crawl_all_papers` returns has pairwise-distinct `arxiv_id`s; and in the
concrete two-page run of `cfgSharedId`, where both pages contain the
identifier `x`, the result keeps exactly one record with id `x`, namely
the first-arrived `paperX1` (with title `t1`, not `paperX2`'s `t2`). -/
theorem c3_no_duplicate_ids :
    (∀ (cfg : CrawlCfg) (fuel : Nat),
      ((crawl_all_papers cfg fuel).1.map Paper.arxiv_id).Nodup) ∧
    (crawl_all_papers cfgSharedId 10).1 = [paperX1, paperY, paperZ] ∧
    ((crawl_all_papers cfgSharedId 10).1.map Paper.arxiv_id).count (some "x") = 1 := by
  refine ⟨?_, by decide, by decide⟩
  intro cfg fuel
  exact (crawlLoop_inv cfg fuel ⟨[], 0, 0⟩ crawlInv_nil).2

/-- C10: every record the crawl returns has a present, non-empty
`arxiv_id`; and the dedup pass itself only ever keeps such records,
whatever the page and the seen-id set. -/
theorem c10_ids_present (cfg : CrawlCfg) (fuel : Nat) :
    (crawl_all_papers cfg fuel).1.all paperIdOk = true ∧
    ∀ (papers : List Paper) (ids : List (Option String)),
      (filterNew papers ids).all paperIdOk = true := by
  constructor
  · rw [List.all_eq_true]
    intro p hp
    exact (crawlLoop_inv cfg fuel ⟨[], 0, 0⟩ crawlInv_nil).1 p hp
  · intro papers ids
    rw [List.all_eq_true]
    intro p hp
    exact ((filterNew_spec papers ids).1 p hp).1

/-! ## Claim C4 -/

theorem filterNew_length_le : ∀ (papers : List Paper) (ids : List (Option String)),
    (filterNew papers ids).length ≤ papers.length := by
  intro papers
  induction papers with
  | nil => intro ids; exact Nat.le_refl 0
  | cons p ps ih =>
    intro ids
    cases hid : p.arxiv_id with
    | none =>
      have hfn : filterNew (p :: ps) ids = filterNew ps ids := by
        simp [filterNew, hid]
      rw [hfn]
      exact Nat.le_succ_of_le (ih ids)
    | some pid =>
      by_cases hcond : pid ≠ "" ∧ some pid ∉ ids
      · have hfn : filterNew (p :: ps) ids = p :: filterNew ps (some pid :: ids) := by
          simp only [filterNew, hid, if_pos hcond]
        rw [hfn, List.length_cons, List.length_cons]
        exact Nat.succ_le_succ (ih _)
      · have hfn : filterNew (p :: ps) ids = filterNew ps ids := by
          simp only [filterNew, hid, if_neg hcond]
        rw [hfn]
        exact Nat.le_succ_of_le (ih ids)

theorem step_preserves_len (cfg : CrawlCfg) (s : CrawlState)
    (hfetch : ∀ st n, (cfg.fetch st n).length ≤ n)
    (h : s.all_papers.length ≤ cfg.max_total) :
    (stOf (step cfg s)).all_papers.length ≤ cfg.max_total := by
  simp only [step]
  split
  · rename_i halive
    split
    · split
      · exact h
      · exact h
    · have hlen : (cfg.fetch s.start (reqSize cfg s)).length ≤ reqSize cfg s :=
        hfetch s.start (reqSize cfg s)
      have hnew := filterNew_length_le (cfg.fetch s.start (reqSize cfg s))
        (s.all_papers.map Paper.arxiv_id)
      have hreq : reqSize cfg s ≤ cfg.max_total - s.all_papers.length :=
        Nat.min_le_right _ _
      have key : (s.all_papers ++ filterNew (cfg.fetch s.start (reqSize cfg s))
          (s.all_papers.map Paper.arxiv_id)).length ≤ cfg.max_total := by
        rw [List.length_append]
        omega
      split
      · split
        · exact key
        · exact key
      · exact key
  · exact h

theorem crawlLoop_len (cfg : CrawlCfg) (hfetch : ∀ st n, (cfg.fetch st n).length ≤ n) :
    ∀ (fuel : Nat) (s : CrawlState),
    s.all_papers.length ≤ cfg.max_total →
    (crawlLoop cfg fuel s).1.all_papers.length ≤ cfg.max_total
  | 0, _, h => h
  | fuel + 1, s, h => by
    simp only [crawlLoop]
    have h' := step_preserves_len cfg s hfetch h
    cases hstep : step cfg s with
    | next s' =>
      rw [hstep] at h'
      exact crawlLoop_len cfg hfetch fuel s' h'
    | done r s' =>
      rw [hstep] at h'
      exact h'

/-- C4: if every fetch returns at most the number of records requested for
that page, the crawl's result never exceeds `max_total`. -/
theorem c4_respects_max_total (cfg : CrawlCfg) (fuel : Nat)
    (hfetch : ∀ st n, (cfg.fetch st n).length ≤ n) :
    (crawl_all_papers cfg fuel).1.length ≤ cfg.max_total :=
  crawlLoop_len cfg hfetch fuel ⟨[], 0, 0⟩ (Nat.zero_le _)

/-- A provider that always returns nothing. -/
def cfgNothing : CrawlCfg :=
  { fetch := fun _ _ => [], max_total := 5, batch_size := 2 }

/-- C4 witness: the bound at a concrete provider that honours the request
size. -/
theorem c4_witness : (crawl_all_papers cfgNothing 5).1.length ≤ cfgNothing.max_total :=
  c4_respects_max_total cfgNothing 5 (fun _ n => Nat.zero_le n)

/-! ## Claim C5 -/

def paper1 : Paper := { arxiv_id := some "1" }
def paper2 : Paper := { arxiv_id := some "2" }
def paper3 : Paper := { arxiv_id := some "3" }
def paper4 : Paper := { arxiv_id := some "4" }
def paper5 : Paper := { arxiv_id := some "5" }
def paper6 : Paper := { arxiv_id := some "6" }

/-- The C5 provider: three successive pages of 2 all-distinct records
(keyed by the offsets 0, 2, 4 the loop actually reaches), returned
regardless of the size requested; nothing afterwards. -/
def cfgThreePages : CrawlCfg :=
  { fetch := fun st _ =>
      if st = 0 then [paper1, paper2]
      else if st = 2 then [paper3, paper4]
      else if st = 4 then [paper5, paper6] else [],
    max_total := 5, batch_size := 2 }

/-- C5: with requested total 5 and page size 2, three provider pages of 2
all-distinct records give exactly 6 records — the third page, fetched when
only 1 more record was requested, completes the target and is not trimmed
— with zero duplicate identifiers, and the run stops as target-reached. -/
theorem c5_end_to_end :
    (crawl_all_papers cfgThreePages 10).1 =
      [paper1, paper2, paper3, paper4, paper5, paper6] ∧
    (crawl_all_papers cfgThreePages 10).1.length = 6 ∧
    ((crawl_all_papers cfgThreePages 10).1.map Paper.arxiv_id).Nodup ∧
    (crawl_all_papers cfgThreePages 10).2 = .targetReached := by
  decide

/-! ## Claim C6 -/

/-- All three text-bearing elements the parser calls a method on are
either absent or have actual text. -/
def entryTextOk (e : Entry) : Prop :=
  e.idElem ≠ some none ∧ e.titleElem ≠ some none ∧ e.summaryElem ≠ some none

/-- The network outcome cannot make the parser call a method on `None`:
transport errors and malformed bodies are always fine, and a well-formed
body is fine when each entry satisfies `entryTextOk`. -/
def outcomeOk : HttpOutcome → Prop
  | .requestError => True
  | .success .malformed => True
  | .success (.wellFormed es) => ∀ e ∈ es, entryTextOk e

theorem textField_ok {x : Option (Option String)} (f : String → String)
    (h : x ≠ some none) : ∃ s, textField x f = .ok s := by
  cases x with
  | none => exact ⟨none, rfl⟩
  | some t =>
    cases t with
    | none => exact absurd rfl h
    | some s => exact ⟨some (f s), rfl⟩

theorem exceptBind_ok {ε α β : Type} (a : α) (f : α → Except ε β) :
    (Except.ok a : Except ε α) >>= f = f a := rfl

theorem parseEntry_ok {e : Entry} (h : entryTextOk e) :
    ∃ p, parseEntry e = .ok p := by
  obtain ⟨h1, h2, h3⟩ := h
  obtain ⟨v1, hv1⟩ := textField_ok (fun t => splitLast t) h1
  obtain ⟨v2, hv2⟩ := textField_ok (fun t => t.trim) h2
  obtain ⟨v3, hv3⟩ := textField_ok (fun t => t.trim) h3
  cases hp : parseEntry e with
  | ok p => exact ⟨p, rfl⟩
  | error err =>
    exfalso
    unfold parseEntry at hp
    rw [hv1, exceptBind_ok, hv2, exceptBind_ok, hv3, exceptBind_ok] at hp
    cases hp

theorem exceptPure_bind {ε α β : Type} (a : α) (f : α → Except ε β) :
    (pure a : Except ε α) >>= f = f a := rfl

theorem parseFold_ok : ∀ (es : List Entry) (acc : List Paper),
    (∀ e ∈ es, entryTextOk e) →
    ∃ l, (es.foldlM (fun acc e => do
        let p ← parseEntry e
        pure (acc ++ [p])) acc : Except PyError (List Paper)) = .ok l := by
  intro es
  induction es with
  | nil => intro acc _; exact ⟨acc, rfl⟩
  | cons e es ih =>
    intro acc h
    obtain ⟨p, hp⟩ := parseEntry_ok (h e (List.mem_cons_self e es))
    rw [List.foldlM_cons, hp, exceptBind_ok, exceptPure_bind]
    exact ih (acc ++ [p]) (fun x hx => h x (List.mem_cons.mpr (Or.inr hx)))

/-- C6 (counterexample): the claim says `fetch_papers` /
`parse_xml_response` never raise for any response text.  But a well-formed
Atom body whose entry has an empty `<id/>` element makes line 219 of
src/crawl.py call `.split` on `None` (`id_elem.text` is `None`), raising
an `AttributeError` that neither the `except ET.ParseError` nor the
`except requests.RequestException` handler catches. -/
theorem c6_counterexample :
    fetch_papers (.success (.wellFormed [{ idElem := some none }])) =
      .error .attributeError := rfl

/-- C6 (amended): transport failures (timeout, non-2xx status) and
malformed markup degrade to zero records without an exception; and for
every outcome whose well-formed entries have no present-but-text-less
`<id>`, `<title>` or `<summary>` element, `fetch_papers` returns a
(possibly empty) list rather than raising. -/
theorem c6_no_fatal_failure (o : HttpOutcome) (h : outcomeOk o) :
    (∃ l, fetch_papers o = .ok l) ∧
    fetch_papers .requestError = .ok [] ∧
    fetch_papers (.success .malformed) = .ok [] := by
  refine ⟨?_, rfl, rfl⟩
  cases o with
  | requestError => exact ⟨[], rfl⟩
  | success doc =>
    cases doc with
    | malformed => exact ⟨[], rfl⟩
    | wellFormed es => exact parseFold_ok es [] h

/-- C6 witness: the amended statement at a concrete outcome — an entry
with a real id text parses to an `ok` list. -/
theorem c6_witness :
    (∃ l, fetch_papers
      (.success (.wellFormed [{ idElem := some (some "abs/1") }])) = .ok l) ∧
    fetch_papers .requestError = .ok [] ∧
    fetch_papers (.success .malformed) = .ok [] :=
  c6_no_fatal_failure (.success (.wellFormed [{ idElem := some (some "abs/1") }]))
    (by
      intro e he
      rw [List.mem_singleton] at he
      subst he
      exact ⟨by decide, by decide, by decide⟩)
